import Mathlib

/-!
# Verification of the Sonarr API client (`src/http/sonarr_client.rs`)

Shallow embedding of the client module: data model (`SeriesInfo`,
`EpisodeInfo`, `Tag`), construction (`SonarrClient::new`, `auth_headers`),
and the per-operation request builders, together with the serde-derived
JSON (de)serialization semantics for the record types.

HTTP exchanges are modelled by passing an explicit service function
`Service σ : σ → Request → σ × Except TransportError HttpResponse`; each
operation returns the final service state, the list of requests it issued
(in order), and its result.  Machine integers (`u64`, `u32`) are modelled
as `Nat` with explicit range checks where the serde decoders enforce them.
-/

deriving instance DecidableEq for Except

namespace Sanitarr

/-- JSON values.  Numeric values are modelled as integers: every numeric
field of this client's data model is an integer type (`u64`/`u32`), and
range checks happen in the decoders. -/
inductive Json where
  | null : Json
  | bool (b : Bool) : Json
  | num (n : Int) : Json
  | str (s : String) : Json
  | arr (elems : List Json) : Json
  | obj (fields : List (String × Json)) : Json

/-- Decidable equality for `Json` (the `deriving` handler does not support
the nested lists, so the recursion goes through the constructors). -/
def Json.decEq : (a b : Json) → Decidable (a = b)
  | .null, .null => .isTrue rfl
  | .bool a, .bool b => decidable_of_iff (a = b) (by simp)
  | .num a, .num b => decidable_of_iff (a = b) (by simp)
  | .str a, .str b => decidable_of_iff (a = b) (by simp)
  | .arr [], .arr [] => .isTrue rfl
  | .arr [], .arr (_ :: _) => .isFalse (by simp)
  | .arr (_ :: _), .arr [] => .isFalse (by simp)
  | .arr (x :: xs), .arr (y :: ys) =>
    match Json.decEq x y, Json.decEq (.arr xs) (.arr ys) with
    | .isTrue h1, .isTrue h2 => .isTrue (by simp_all)
    | .isFalse h1, _ => .isFalse (by simp_all)
    | _, .isFalse h2 => .isFalse (by simp_all)
  | .obj [], .obj [] => .isTrue rfl
  | .obj [], .obj (_ :: _) => .isFalse (by simp)
  | .obj (_ :: _), .obj [] => .isFalse (by simp)
  | .obj ((k, v) :: xs), .obj ((l, w) :: ys) =>
    match String.decEq k l, Json.decEq v w, Json.decEq (.obj xs) (.obj ys) with
    | .isTrue hk, .isTrue h1, .isTrue h2 => .isTrue (by simp_all)
    | .isFalse hk, _, _ => .isFalse (by simp_all)
    | _, .isFalse h1, _ => .isFalse (by simp_all)
    | _, _, .isFalse h2 => .isFalse (by simp_all)
  | .null, .bool _ => .isFalse (by simp)
  | .null, .num _ => .isFalse (by simp)
  | .null, .str _ => .isFalse (by simp)
  | .null, .arr _ => .isFalse (by simp)
  | .null, .obj _ => .isFalse (by simp)
  | .bool _, .null => .isFalse (by simp)
  | .bool _, .num _ => .isFalse (by simp)
  | .bool _, .str _ => .isFalse (by simp)
  | .bool _, .arr _ => .isFalse (by simp)
  | .bool _, .obj _ => .isFalse (by simp)
  | .num _, .null => .isFalse (by simp)
  | .num _, .bool _ => .isFalse (by simp)
  | .num _, .str _ => .isFalse (by simp)
  | .num _, .arr _ => .isFalse (by simp)
  | .num _, .obj _ => .isFalse (by simp)
  | .str _, .null => .isFalse (by simp)
  | .str _, .bool _ => .isFalse (by simp)
  | .str _, .num _ => .isFalse (by simp)
  | .str _, .arr _ => .isFalse (by simp)
  | .str _, .obj _ => .isFalse (by simp)
  | .arr _, .null => .isFalse (by simp)
  | .arr _, .bool _ => .isFalse (by simp)
  | .arr _, .num _ => .isFalse (by simp)
  | .arr _, .str _ => .isFalse (by simp)
  | .arr _, .obj _ => .isFalse (by simp)
  | .obj _, .null => .isFalse (by simp)
  | .obj _, .bool _ => .isFalse (by simp)
  | .obj _, .num _ => .isFalse (by simp)
  | .obj _, .str _ => .isFalse (by simp)
  | .obj _, .arr _ => .isFalse (by simp)

instance : DecidableEq Json := Json.decEq

/-- Decode failures of the serde-derived deserializers. -/
inductive DecodeError where
  | missingField (name : String) : DecodeError
  | duplicateField (name : String) : DecodeError
  | typeMismatch : DecodeError
  | outOfRange : DecodeError
deriving DecidableEq

/-- serde: deserialize a `u64` from a JSON number (range `0 ≤ n < 2^64`). -/
def Json.asU64 : Json → Except DecodeError Nat
  | .num (.ofNat m) => if m < 2 ^ 64 then .ok m else .error .outOfRange
  | .num (.negSucc _) => .error .outOfRange
  | _ => .error .typeMismatch

/-- serde: deserialize a `u32` from a JSON number (range `0 ≤ n < 2^32`). -/
def Json.asU32 : Json → Except DecodeError Nat
  | .num (.ofNat m) => if m < 2 ^ 32 then .ok m else .error .outOfRange
  | .num (.negSucc _) => .error .outOfRange
  | _ => .error .typeMismatch

/-- serde: deserialize a `String`. -/
def Json.asStr : Json → Except DecodeError String
  | .str s => .ok s
  | _ => .error .typeMismatch

/-- serde: deserialize a `bool`. -/
def Json.asBool : Json → Except DecodeError Bool
  | .bool b => .ok b
  | _ => .error .typeMismatch

/-- serde: deserialize an `Option<u64>` (JSON `null` maps to `None`). -/
def Json.asOptU64 : Json → Except DecodeError (Option Nat)
  | .null => .ok none
  | j =>
    match j.asU64 with
    | .ok n => .ok (some n)
    | .error e => .error e

/-- First value stored under a key in a JSON object's field list. -/
def jlookup (fields : List (String × Json)) (k : String) : Option Json :=
  match fields with
  | [] => none
  | (k', v) :: rest => if k' = k then some v else jlookup rest k

/-! ## URLs

The Rust code delegates URL handling to the `url` crate (`Url::parse`,
`Url::set_path`, `Url::join`).  The model keeps a parsed URL as scheme,
authority (host and optional port, uninspected by this client) and path,
with `parse` accepting `scheme "://" authority ["/" path]` and `join`
implementing relative-reference resolution for the path-only relative
references this client uses. -/

/-- URL parse failures (the classification of `url::ParseError` this
client can hit). -/
inductive UrlError where
  | relativeUrlWithoutBase : UrlError
  | invalidScheme : UrlError
  | emptyHost : UrlError
deriving DecidableEq

structure Url where
  scheme : String
  authority : String
  path : String
deriving DecidableEq

/-- Split an input at the first occurrence of `://`: the characters
before it and the characters after it. -/
def splitScheme : List Char → Option (List Char × List Char)
  | [] => none
  | ':' :: '/' :: '/' :: rest => some ([], rest)
  | c :: rest =>
    match splitScheme rest with
    | none => none
    | some (a, b) => some (c :: a, b)

/-- Split an input at the first `/`: the characters before it and, when a
`/` occurs at all, the characters after it. -/
def breakAtSlash : List Char → List Char × Option (List Char)
  | [] => ([], none)
  | '/' :: rest => ([], some rest)
  | c :: rest =>
    match breakAtSlash rest with
    | (a, b) => (c :: a, b)

/-- Model of `url::Url::parse` restricted to the absolute
`scheme://authority[/path]` shapes this client's configuration uses:
anything not of that shape is a parse error. -/
def Url.parse (s : String) : Except UrlError Url :=
  match splitScheme s.data with
  | none => .error .relativeUrlWithoutBase
  | some (sch, rest) =>
    if sch = [] then .error .relativeUrlWithoutBase
    else if sch.all Char.isAlpha then
      match breakAtSlash rest with
      | (host, pathTail) =>
        if host = [] then .error .emptyHost
        else .ok { scheme := String.mk sch, authority := String.mk host,
                   path := match pathTail with
                           | none => "/"
                           | some p => String.mk ('/' :: p) }
    else .error .invalidScheme

/-- `url::Url::set_path`. -/
def Url.set_path (u : Url) (p : String) : Url :=
  { u with path := p }

/-- The directory part of a path: everything up to and including the last
slash (used by relative-reference resolution). -/
def dirOf (p : String) : String :=
  String.mk ((p.data.reverse.dropWhile (fun c => c ≠ '/')).reverse)

/-- Model of `url::Url::join` for the relative references this client
builds: a reference starting with `/` replaces the whole path, any other
reference is resolved against the directory of the base path. -/
def Url.join (u : Url) (rel : String) : Url :=
  if rel.data.head? = some '/' then { u with path := rel }
  else { u with path := dirOf u.path ++ rel }

/-- The character for a decimal digit. -/
def digitChar (n : Nat) : Char :=
  if n = 0 then '0' else if n = 1 then '1' else if n = 2 then '2'
  else if n = 3 then '3' else if n = 4 then '4' else if n = 5 then '5'
  else if n = 6 then '6' else if n = 7 then '7' else if n = 8 then '8'
  else '9'

/-- Digits of `n` in order, with enough fuel (any `fuel > log10 n`
yields the full rendering; `decRepr` passes `n + 1`). -/
def decDigitsAux : Nat → Nat → List Char
  | 0, _ => []
  | fuel + 1, n =>
    if n < 10 then [digitChar n]
    else decDigitsAux fuel (n / 10) ++ [digitChar (n % 10)]

/-- Decimal rendering of a natural number (`u64::to_string`). -/
def decRepr (n : Nat) : String :=
  String.mk (decDigitsAux (n + 1) n)

/-! ## Headers and client construction -/

/-- A header value (`http::HeaderValue`): the byte content plus the
`sensitive` flag set by `set_sensitive`. -/
structure HeaderValue where
  value : String
  sensitive : Bool
deriving DecidableEq

/-- `http::HeaderValue::from_str` accepts a character iff it is horizontal
tab or a visible/extended byte: code 9, or at least 32 and not 127. -/
def validHeaderChar (c : Char) : Bool :=
  c.toNat = 9 || (32 ≤ c.toNat && c.toNat ≠ 127)

/-- The `Debug` rendering of a header value: a sensitive value renders as
the fixed text `Sensitive`, never its content. -/
def HeaderValue.debugRender (v : HeaderValue) : String :=
  if v.sensitive then "Sensitive" else v.value

abbrev HeaderMap := List (String × HeaderValue)

/-- `http::HeaderMap::insert`: replaces any existing entries for the key
and stores the new value. -/
def headerInsert (m : HeaderMap) (k : String) (v : HeaderValue) : HeaderMap :=
  (List.filter (fun p => p.1 ≠ k) m) ++ [(k, v)]

/-- Number of entries a header map holds for a key. -/
def headerCount (m : HeaderMap) (k : String) : Nat :=
  List.length (List.filter (fun p => p.1 = k) m)

/-- Value stored for a key in a header map. -/
def headerGet (m : HeaderMap) (k : String) : Option HeaderValue :=
  Option.map Prod.snd (List.find? (fun p => p.1 = k) m)

/-- The error taxonomy of the client (the classification of the `anyhow`
errors the module surfaces, per the spec's §7 kinds). -/
inductive ClientError where
  | invalidUrl (e : UrlError) : ClientError
  | invalidCredential : ClientError
  | transport : ClientError
  | httpStatus (code : Nat) : ClientError
  | decode (e : DecodeError) : ClientError
deriving DecidableEq

/-- `auth_headers`: build the default header map holding the API key under
`x-api-key`, marked sensitive; fails iff the key is not a legal header
value (`HeaderValue::from_str` error, classified `InvalidCredential`). -/
def auth_headers (api_key : String) : Except ClientError HeaderMap :=
  if api_key.data.all validHeaderChar then
    .ok (headerInsert [] "x-api-key" { value := api_key, sensitive := true })
  else .error .invalidCredential

/-- The client handle: the pre-built default headers (owned by the
`reqwest::Client` in the Rust code) and the base URL. -/
structure SonarrClient where
  default_headers : HeaderMap
  base_url : Url
deriving DecidableEq

/-- `SonarrClient::new`: parse the base URL (failure is `InvalidUrl`),
force its path to `/api/v3/`, build the default headers.  No request is
issued: construction is a pure function of the two strings. -/
def SonarrClient.new (base_url api_key : String) : Except ClientError SonarrClient :=
  match Url.parse base_url with
  | .error e => .error (.invalidUrl e)
  | .ok u =>
    match auth_headers api_key with
    | .error e => .error e
    | .ok hs => .ok { default_headers := hs, base_url := u.set_path "/api/v3/" }

/-! ## The record types and their serde semantics

The three wire types derive serde's `Deserialize` (and, for
`EpisodeInfo`, `Serialize`) with `rename_all = "camelCase"` and no other
attribute.  The derived deserializer walks the JSON object's entries in
order; a known key that was already filled is a `duplicate field` error,
an unknown key is ignored together with its value, and at the end a
missing required field is an error while a missing `Option` field becomes
`None`. -/

/-- Generic derived-deserializer field collection pass: walk the entries,
fill one slot per known field, ignore unknown keys, error on a duplicate
known key. -/
def collectFields {F : Type} [DecidableEq F] (keyOf : String → Option F) :
    List (String × Json) → (F → Option Json) → Except DecodeError (F → Option Json)
  | [], s => .ok s
  | (k, v) :: rest, s =>
    match keyOf k with
    | none => collectFields keyOf rest s
    | some f =>
      match s f with
      | some _ => .error (.duplicateField k)
      | none => collectFields keyOf rest (fun g => if g = f then some v else s g)

/-- A required `u64` field: `missing field` when the slot is empty, else
deserialize the value. -/
def reqU64 {F : Type} (slots : F → Option Json) (f : F) (key : String) :
    Except DecodeError Nat :=
  match slots f with
  | some j => j.asU64
  | none => .error (.missingField key)

/-- A required `u32` field. -/
def reqU32 {F : Type} (slots : F → Option Json) (f : F) (key : String) :
    Except DecodeError Nat :=
  match slots f with
  | some j => j.asU32
  | none => .error (.missingField key)

/-- A required `String` field. -/
def reqStr {F : Type} (slots : F → Option Json) (f : F) (key : String) :
    Except DecodeError String :=
  match slots f with
  | some j => j.asStr
  | none => .error (.missingField key)

/-- A required `bool` field. -/
def reqBool {F : Type} (slots : F → Option Json) (f : F) (key : String) :
    Except DecodeError Bool :=
  match slots f with
  | some j => j.asBool
  | none => .error (.missingField key)

/-- serde: deserialize a `Vec` element by element, in order. -/
def decodeList {α : Type} (f : Json → Except DecodeError α) :
    List Json → Except DecodeError (List α)
  | [] => .ok []
  | j :: rest => do
    let a ← f j
    let as ← decodeList f rest
    .ok (a :: as)

/-- The wire fields of `EpisodeInfo`. -/
inductive EpField where
  | id | seriesId | episodeFileId | title | seasonNumber | episodeNumber | monitored
deriving DecidableEq

/-- camelCase wire key of each `EpisodeInfo` field. -/
def EpField.key : EpField → String
  | .id => "id"
  | .seriesId => "seriesId"
  | .episodeFileId => "episodeFileId"
  | .title => "title"
  | .seasonNumber => "seasonNumber"
  | .episodeNumber => "episodeNumber"
  | .monitored => "monitored"

/-- Which `EpisodeInfo` field a wire key denotes, if any. -/
def epFieldOfKey (k : String) : Option EpField :=
  if k = "id" then some .id
  else if k = "seriesId" then some .seriesId
  else if k = "episodeFileId" then some .episodeFileId
  else if k = "title" then some .title
  else if k = "seasonNumber" then some .seasonNumber
  else if k = "episodeNumber" then some .episodeNumber
  else if k = "monitored" then some .monitored
  else none

/-- `EpisodeInfo` (Rust: `id: u64, series_id: u64, episode_file_id:
Option<u64>, title: String, season_number: u32, episode_number: u32,
monitored: bool`). -/
structure EpisodeInfo where
  id : Nat
  series_id : Nat
  episode_file_id : Option Nat
  title : String
  season_number : Nat
  episode_number : Nat
  monitored : Bool
deriving DecidableEq

/-- The ranges the Rust integer types guarantee for an `EpisodeInfo`. -/
def EpisodeInfo.wf (e : EpisodeInfo) : Prop :=
  e.id < 2 ^ 64 ∧ e.series_id < 2 ^ 64 ∧
  (∀ n, e.episode_file_id = some n → n < 2 ^ 64) ∧
  e.season_number < 2 ^ 32 ∧ e.episode_number < 2 ^ 32

instance (e : EpisodeInfo) : Decidable e.wf := by
  unfold EpisodeInfo.wf
  have : Decidable (∀ n, e.episode_file_id = some n → n < 2 ^ 64) := by
    cases h : e.episode_file_id with
    | none => exact .isTrue (by simp)
    | some m => exact decidable_of_iff (m < 2 ^ 64) (by simp)
  exact inferInstance

/-- serde: an `Option<u64>` field slot — an absent field becomes `None`,
a present one deserializes its value. -/
def optSlotU64 : Option Json → Except DecodeError (Option Nat)
  | none => .ok none
  | some j => j.asOptU64

/-- Derived `Deserialize` for `EpisodeInfo`: collect the object's
entries into the field slots, then deserialize each field's value, in
declaration order (the first failure wins). -/
def decodeEpisode : Json → Except DecodeError EpisodeInfo
  | .obj fields =>
    match collectFields epFieldOfKey fields (fun _ => none) with
    | .error e => .error e
    | .ok slots =>
      match reqU64 slots .id "id", reqU64 slots .seriesId "seriesId",
            optSlotU64 (slots .episodeFileId), reqStr slots .title "title",
            reqU32 slots .seasonNumber "seasonNumber",
            reqU32 slots .episodeNumber "episodeNumber",
            reqBool slots .monitored "monitored" with
      | .ok id, .ok series_id, .ok episode_file_id, .ok title,
        .ok season_number, .ok episode_number, .ok monitored =>
        .ok { id := id, series_id := series_id,
              episode_file_id := episode_file_id, title := title,
              season_number := season_number,
              episode_number := episode_number, monitored := monitored }
      | .error e, _, _, _, _, _, _ => .error e
      | _, .error e, _, _, _, _, _ => .error e
      | _, _, .error e, _, _, _, _ => .error e
      | _, _, _, .error e, _, _, _ => .error e
      | _, _, _, _, .error e, _, _ => .error e
      | _, _, _, _, _, .error e, _ => .error e
      | _, _, _, _, _, _, .error e => .error e
  | _ => .error .typeMismatch

/-- serde: serialize an `Option<u64>` value (`None` serializes to
`null`). -/
def epFileJson : Option Nat → Json
  | none => .null
  | some n => .num n

/-- Derived `Serialize` for `EpisodeInfo`: the seven declared fields in
declaration order under their camelCase keys; `None` serializes to
`null`. -/
def EpisodeInfo.toJson (e : EpisodeInfo) : Json :=
  .obj [("id", .num e.id),
        ("seriesId", .num e.series_id),
        ("episodeFileId", epFileJson e.episode_file_id),
        ("title", .str e.title),
        ("seasonNumber", .num e.season_number),
        ("episodeNumber", .num e.episode_number),
        ("monitored", .bool e.monitored)]

/-- The wire fields of `SeriesInfo`. -/
inductive SField where
  | title | id | tags
deriving DecidableEq

/-- Which `SeriesInfo` field a wire key denotes, if any. -/
def sFieldOfKey (k : String) : Option SField :=
  if k = "title" then some .title
  else if k = "id" then some .id
  else if k = "tags" then some .tags
  else none

/-- `SeriesInfo` (Rust: `title: String, id: u64, tags:
Option<Vec<u64>>`). -/
structure SeriesInfo where
  title : String
  id : Nat
  tags : Option (List Nat)
deriving DecidableEq

/-- serde: deserialize an `Option<Vec<u64>>` value (`null` maps to
`None`). -/
def Json.asOptU64List : Json → Except DecodeError (Option (List Nat))
  | .null => .ok none
  | .arr xs => do let ns ← decodeList Json.asU64 xs; .ok (some ns)
  | _ => .error .typeMismatch

/-- serde: an `Option<Vec<u64>>` field slot — an absent field becomes
`None`, a present one deserializes its value. -/
def optSlotU64List : Option Json → Except DecodeError (Option (List Nat))
  | none => .ok none
  | some j => j.asOptU64List

/-- Derived `Deserialize` for `SeriesInfo`. -/
def decodeSeries : Json → Except DecodeError SeriesInfo
  | .obj fields =>
    match collectFields sFieldOfKey fields (fun _ => none) with
    | .error e => .error e
    | .ok slots =>
      match reqStr slots .title "title", reqU64 slots .id "id",
            optSlotU64List (slots .tags) with
      | .ok title, .ok id, .ok tags =>
        .ok { title := title, id := id, tags := tags }
      | .error e, _, _ => .error e
      | _, .error e, _ => .error e
      | _, _, .error e => .error e
  | _ => .error .typeMismatch

/-- The wire fields of `Tag`. -/
inductive TField where
  | label | id
deriving DecidableEq

/-- Which `Tag` field a wire key denotes, if any. -/
def tFieldOfKey (k : String) : Option TField :=
  if k = "label" then some .label
  else if k = "id" then some .id
  else none

/-- `Tag` (Rust: `label: String, id: u64`). -/
structure Tag where
  label : String
  id : Nat
deriving DecidableEq

/-- Derived `Deserialize` for `Tag`. -/
def decodeTag : Json → Except DecodeError Tag
  | .obj fields =>
    match collectFields tFieldOfKey fields (fun _ => none) with
    | .error e => .error e
    | .ok slots =>
      match reqStr slots .label "label", reqU64 slots .id "id" with
      | .ok label, .ok id => .ok { label := label, id := id }
      | .error e, _ => .error e
      | _, .error e => .error e
  | _ => .error .typeMismatch

/-- `Vec<SeriesInfo>` from a response body. -/
def decodeSeriesList : Json → Except DecodeError (List SeriesInfo)
  | .arr xs => decodeList decodeSeries xs
  | _ => .error .typeMismatch

/-- `Vec<EpisodeInfo>` from a response body. -/
def decodeEpisodeList : Json → Except DecodeError (List EpisodeInfo)
  | .arr xs => decodeList decodeEpisode xs
  | _ => .error .typeMismatch

/-- `Vec<Tag>` from a response body. -/
def decodeTagList : Json → Except DecodeError (List Tag)
  | .arr xs => decodeList decodeTag xs
  | _ => .error .typeMismatch

/-! ## Requests, responses and the service model

Each operation is embedded as a function that, besides its Rust
arguments, takes a service (the remote side plus transport, as an
explicit state-passing function) and returns the final service state, the
requests the operation issued in order, and its result. -/

inductive Method where
  | get | put | delete
deriving DecidableEq

structure Request where
  method : Method
  url : Url
  query : List (String × String)
  headers : HeaderMap
  body : Option Json
deriving DecidableEq

structure HttpResponse where
  status : Nat
  body : Json
deriving DecidableEq

/-- Transport-level failure (connect/timeout; opaque cause). -/
inductive TransportError where
  | connect
deriving DecidableEq

/-- A remote service with state `σ`: consumes a request, yields the next
state and either a transport failure or an HTTP response. -/
def Service (σ : Type) : Type :=
  σ → Request → σ × Except TransportError HttpResponse

/-- Modelled from the spec: `ResponseExt::handle_error` lives in
`src/http/mod.rs`, which is not among the provided sources.  Per §7, any
non-2xx status maps to a classified HTTP error carrying the status code,
and a 2xx response passes through unchanged. -/
def handle_error (r : HttpResponse) : Except ClientError HttpResponse :=
  if 200 ≤ r.status ∧ r.status < 300 then .ok r else .error (.httpStatus r.status)

/-- Build an outgoing request: `reqwest` attaches the client's default
headers (the API key) to every request it sends. -/
def SonarrClient.mkRequest (c : SonarrClient) (m : Method) (u : Url)
    (q : List (String × String)) (b : Option Json) : Request :=
  { method := m, url := u, query := q, headers := c.default_headers, body := b }

/-- `SonarrClient::series_by_tvdb_id`: GET `series?tvdbId=<provider_id>`,
decode a `Vec<SeriesInfo>`. -/
def SonarrClient.series_by_tvdb_id {σ : Type} (c : SonarrClient) (svc : Service σ)
    (s : σ) (provider_id : String) :
    σ × List Request × Except ClientError (List SeriesInfo) :=
  let url := c.base_url.join "series"
  let req := c.mkRequest .get url [("tvdbId", provider_id)] none
  match svc s req with
  | (s1, .error _) => (s1, [req], .error .transport)
  | (s1, .ok resp) =>
    match handle_error resp with
    | .error e => (s1, [req], .error e)
    | .ok resp2 =>
      match decodeSeriesList resp2.body with
      | .error e => (s1, [req], .error (.decode e))
      | .ok xs => (s1, [req], .ok xs)

/-- `SonarrClient::tags`: GET `tag`, decode a `Vec<Tag>`. -/
def SonarrClient.tags {σ : Type} (c : SonarrClient) (svc : Service σ) (s : σ) :
    σ × List Request × Except ClientError (List Tag) :=
  let url := c.base_url.join "tag"
  let req := c.mkRequest .get url [] none
  match svc s req with
  | (s1, .error _) => (s1, [req], .error .transport)
  | (s1, .ok resp) =>
    match handle_error resp with
    | .error e => (s1, [req], .error e)
    | .ok resp2 =>
      match decodeTagList resp2.body with
      | .error e => (s1, [req], .error (.decode e))
      | .ok xs => (s1, [req], .ok xs)

/-- `SonarrClient::episodes_by_series`: GET `episode?seriesId=<id>`,
decode a `Vec<EpisodeInfo>`. -/
def SonarrClient.episodes_by_series {σ : Type} (c : SonarrClient) (svc : Service σ)
    (s : σ) (series_id : Nat) :
    σ × List Request × Except ClientError (List EpisodeInfo) :=
  let url := c.base_url.join "episode"
  let req := c.mkRequest .get url [("seriesId", decRepr series_id)] none
  match svc s req with
  | (s1, .error _) => (s1, [req], .error .transport)
  | (s1, .ok resp) =>
    match handle_error resp with
    | .error e => (s1, [req], .error e)
    | .ok resp2 =>
      match decodeEpisodeList resp2.body with
      | .error e => (s1, [req], .error (.decode e))
      | .ok xs => (s1, [req], .ok xs)

/-- `SonarrClient::delete_episode_file`: DELETE
`episodefile/<episode_file_id>`; any 2xx response is success, the body
is never decoded. -/
def SonarrClient.delete_episode_file {σ : Type} (c : SonarrClient) (svc : Service σ)
    (s : σ) (episode_file_id : Nat) :
    σ × List Request × Except ClientError Unit :=
  let url := (c.base_url.join "episodefile/").join (decRepr episode_file_id)
  let req := c.mkRequest .delete url [] none
  match svc s req with
  | (s1, .error _) => (s1, [req], .error .transport)
  | (s1, .ok resp) =>
    match handle_error resp with
    | .error e => (s1, [req], .error e)
    | .ok _ => (s1, [req], .ok ())

/-- Step 1 of `SonarrClient::unmonitor_episode`: GET `episode/<id>` and
decode the full `EpisodeInfo`. -/
def SonarrClient.get_episode {σ : Type} (c : SonarrClient) (svc : Service σ)
    (s : σ) (episode_id : Nat) :
    σ × List Request × Except ClientError EpisodeInfo :=
  let url := (c.base_url.join "episode/").join (decRepr episode_id)
  let req := c.mkRequest .get url [] none
  match svc s req with
  | (s1, .error _) => (s1, [req], .error .transport)
  | (s1, .ok resp) =>
    match handle_error resp with
    | .error e => (s1, [req], .error e)
    | .ok resp2 =>
      match decodeEpisode resp2.body with
      | .error e => (s1, [req], .error (.decode e))
      | .ok ep => (s1, [req], .ok ep)

/-- `SonarrClient::unmonitor_episode`: GET the episode, set `monitored`
to `false` on the decoded record, PUT the whole re-encoded record back to
the same URL. -/
def SonarrClient.unmonitor_episode {σ : Type} (c : SonarrClient) (svc : Service σ)
    (s : σ) (episode_id : Nat) :
    σ × List Request × Except ClientError Unit :=
  let url := (c.base_url.join "episode/").join (decRepr episode_id)
  match c.get_episode svc s episode_id with
  | (s1, tr, .error e) => (s1, tr, .error e)
  | (s1, tr, .ok ep) =>
    let ep2 := { ep with monitored := false }
    let putReq := c.mkRequest .put url [] (some ep2.toJson)
    match svc s1 putReq with
    | (s2, .error _) => (s2, tr ++ [putReq], .error .transport)
    | (s2, .ok resp) =>
      match handle_error resp with
      | .error e => (s2, tr ++ [putReq], .error e)
      | .ok _ => (s2, tr ++ [putReq], .ok ())

/-! ## The fake service of the spec's test harness (§8)

A recorded remote state holding one episode record, served on GET; PUT
decodes the sent body and commits it, or — with failure injection on —
answers 500 and leaves the recorded state untouched. -/

structure FakeSonarr where
  record : EpisodeInfo
  failPut : Bool
deriving DecidableEq

/-- The fake service: routes on the request method. -/
def fakeService : Service FakeSonarr := fun st req =>
  match req.method with
  | .get => (st, .ok { status := 200, body := st.record.toJson })
  | .put =>
    if st.failPut then (st, .ok { status := 500, body := .null })
    else
      match req.body with
      | some b =>
        match decodeEpisode b with
        | .ok ep => ({ st with record := ep }, .ok { status := 202, body := b })
        | .error _ => (st, .ok { status := 400, body := .null })
      | none => (st, .ok { status := 400, body := .null })
  | .delete => (st, .ok { status := 404, body := .null })

/-! ## The read-modify-write frame property (§3, §4.6) -/

/-- The body of the PUT in `unmonitor_episode` as a function of the body
read in step 1: decode, set `monitored := false`, re-encode. -/
def unmonitorWriteBody (readBody : Json) : Except DecodeError Json := do
  let ep ← decodeEpisode readBody
  .ok (EpisodeInfo.toJson { ep with monitored := false })

/-- The keys of a JSON object body. -/
def objKeys : Json → List String
  | .obj fields => List.map Prod.fst fields
  | _ => []

/-- Two key lists hold the same keys (regardless of order). -/
def sameKeys (a b : List String) : Bool :=
  (a.all fun k => decide (k ∈ b)) && (b.all fun k => decide (k ∈ a))

/-- The seven wire keys of `EpisodeInfo`, in declaration order. -/
def episodeKeys : List String :=
  ["id", "seriesId", "episodeFileId", "title", "seasonNumber",
   "episodeNumber", "monitored"]

/-- The spec's round-trip frame property between the body read in step 1
and the body written in step 3: both are objects and every key occurring
in either holds equal values in both — except `monitored` (in
particular, a key present on one side only breaks the property for any
value). -/
def agreesExceptMonitored (readBody writeBody : Json) : Prop :=
  match readBody, writeBody with
  | .obj rf, .obj wf =>
    ∀ k, k ∈ List.map Prod.fst rf ++ List.map Prod.fst wf →
      k = "monitored" ∨ jlookup rf k = jlookup wf k
  | _, _ => False

/-- The filled slots a decode of `EpisodeInfo.toJson e` collects. -/
def epSlots (e : EpisodeInfo) : EpField → Option Json :=
  fun f => some (match f with
    | .id => .num e.id
    | .seriesId => .num e.series_id
    | .episodeFileId => epFileJson e.episode_file_id
    | .title => .str e.title
    | .seasonNumber => .num e.season_number
    | .episodeNumber => .num e.episode_number
    | .monitored => .bool e.monitored)

/-- The GET request of step 1 of `unmonitor_episode` (also the URL of the
PUT of step 3). -/
def episodeUrl (c : SonarrClient) (eid : Nat) : Url :=
  (c.base_url.join "episode/").join (decRepr eid)

/-- Value stored under a key of a JSON object body (`none` for a
non-object or an absent key). -/
def objLookup : Json → String → Option Json
  | .obj fields, k => jlookup fields k
  | _, _ => none

/-! ## Concrete fixtures for the test scenarios -/

/-- A concrete client: base `http://h`, key `k` (what
`SonarrClient::new "http://h" "k"` constructs). -/
def wClient : SonarrClient :=
  { default_headers := [("x-api-key", { value := "k", sensitive := true })],
    base_url := { scheme := "http", authority := "h", path := "/api/v3/" } }

/-- A service answering every request with HTTP 404. -/
def svc404 : Service Unit := fun s _ => (s, .ok { status := 404, body := .null })

/-- A concrete episode record. -/
def cEpisode : EpisodeInfo :=
  { id := 1, series_id := 2, episode_file_id := none, title := "t",
    season_number := 1, episode_number := 3, monitored := true }

/-- The seven declared wire fields of `cEpisode`. -/
def cFields7 : List (String × Json) :=
  [("id", .num 1), ("seriesId", .num 2), ("episodeFileId", .null),
   ("title", .str "t"), ("seasonNumber", .num 1), ("episodeNumber", .num 3),
   ("monitored", .bool true)]

/-- An episode body carrying one extra field the client does not model. -/
def cBody : Json :=
  .obj (cFields7 ++ [("absoluteEpisodeNumber", .num 5)])

/-- The write body `unmonitor_episode` produces from `cBody`: the extra
field is gone. -/
def cWriteBody : Json :=
  .obj [("id", .num 1), ("seriesId", .num 2), ("episodeFileId", .null),
        ("title", .str "t"), ("seasonNumber", .num 1), ("episodeNumber", .num 3),
        ("monitored", .bool false)]

/-- A service whose GETs answer the fixed body `cBody` and whose other
requests answer 202. -/
def svcC1 : Service Unit := fun s req =>
  match req.method with
  | .get => (s, .ok { status := 200, body := cBody })
  | _ => (s, .ok { status := 202, body := .null })

/-- A service whose GETs answer the body `.obj cFields7` (no extra
field) and whose other requests answer 202. -/
def svcC1b : Service Unit := fun s req =>
  match req.method with
  | .get => (s, .ok { status := 200, body := .obj cFields7 })
  | _ => (s, .ok { status := 202, body := .null })

/-- The series body of the spec's concrete lookup scenario:
one entry, title `Breaking Bad`, id 42, tags [1, 2]. -/
def cSeriesBody : List Json :=
  [.obj [("title", .str "Breaking Bad"), ("id", .num 42),
         ("tags", .arr [.num 1, .num 2])]]

/-- The decoded record of the series scenario. -/
def cSeries : SeriesInfo :=
  { title := "Breaking Bad", id := 42, tags := some [1, 2] }

/-- A service whose GETs answer the series body above. -/
def svcC6 : Service Unit := fun s req =>
  match req.method with
  | .get => (s, .ok { status := 200, body := .arr cSeriesBody })
  | _ => (s, .ok { status := 202, body := .null })

/-- A service answering every request with 204 and an empty body. -/
def svc204 : Service Unit := fun s _ => (s, .ok { status := 204, body := .null })

/-! ## Helper lemmas about the serde embedding -/

theorem jlookup_isSome_of_mem {fields : List (String × Json)} {k : String}
    (h : k ∈ List.map Prod.fst fields) : ∃ v, jlookup fields k = some v := by
  induction fields with
  | nil => simp at h
  | cons kv rest ih =>
    obtain ⟨k', w⟩ := kv
    by_cases hk : k' = k
    · exact ⟨w, by simp [jlookup, hk]⟩
    · simp only [jlookup, if_neg hk]
      rw [List.map_cons] at h
      rcases List.mem_cons.1 h with hc | hc
      · exact absurd hc.symm hk
      · exact ih hc

theorem asU64_ok {j : Json} {n : Nat} (h : j.asU64 = .ok n) :
    j = .num n ∧ n < 2 ^ 64 := by
  cases j
  case num m =>
    cases m with
    | negSucc k => exact Except.noConfusion h
    | ofNat k =>
      rw [Json.asU64] at h
      split at h
      · rename_i hcond
        injection h with h3
        subst h3
        exact ⟨rfl, hcond⟩
      · exact Except.noConfusion h
  all_goals exact Except.noConfusion h

theorem asU32_ok {j : Json} {n : Nat} (h : j.asU32 = .ok n) :
    j = .num n ∧ n < 2 ^ 32 := by
  cases j
  case num m =>
    cases m with
    | negSucc k => exact Except.noConfusion h
    | ofNat k =>
      rw [Json.asU32] at h
      split at h
      · rename_i hcond
        injection h with h3
        subst h3
        exact ⟨rfl, hcond⟩
      · exact Except.noConfusion h
  all_goals exact Except.noConfusion h

theorem asStr_ok {j : Json} {s : String} (h : j.asStr = .ok s) : j = .str s := by
  cases j <;> simp only [Json.asStr] at h <;> try exact Except.noConfusion h
  case str t => injection h with h3; rw [h3]

theorem asBool_ok {j : Json} {b : Bool} (h : j.asBool = .ok b) : j = .bool b := by
  cases j <;> simp only [Json.asBool] at h <;> try exact Except.noConfusion h
  case bool c => injection h with h3; rw [h3]

theorem asOptU64_ok {j : Json} {o : Option Nat} (h : j.asOptU64 = .ok o) :
    j = epFileJson o := by
  cases j
  case null =>
    simp only [Json.asOptU64] at h
    injection h with h3
    rw [← h3]; rfl
  case num m =>
    simp only [Json.asOptU64] at h
    split at h
    · rename_i n hn
      injection h with h3
      obtain ⟨hj, _⟩ := asU64_ok hn
      rw [← h3]
      exact hj
    · exact Except.noConfusion h
  all_goals
    simp only [Json.asOptU64] at h
    split at h
    · rename_i n hn
      exact absurd (asU64_ok hn).1 (by simp)
    · exact Except.noConfusion h

theorem reqU64_ok {F : Type} {slots : F → Option Json} {f : F} {key : String}
    {n : Nat} (h : reqU64 slots f key = .ok n) :
    slots f = some (.num n) ∧ n < 2 ^ 64 := by
  unfold reqU64 at h
  cases hs : slots f with
  | none => rw [hs] at h; exact Except.noConfusion h
  | some j =>
    rw [hs] at h
    obtain ⟨hj, hb⟩ := asU64_ok h
    exact ⟨by rw [hj], hb⟩

theorem reqU32_ok {F : Type} {slots : F → Option Json} {f : F} {key : String}
    {n : Nat} (h : reqU32 slots f key = .ok n) :
    slots f = some (.num n) ∧ n < 2 ^ 32 := by
  unfold reqU32 at h
  cases hs : slots f with
  | none => rw [hs] at h; exact Except.noConfusion h
  | some j =>
    rw [hs] at h
    obtain ⟨hj, hb⟩ := asU32_ok h
    exact ⟨by rw [hj], hb⟩

theorem reqStr_ok {F : Type} {slots : F → Option Json} {f : F} {key : String}
    {t : String} (h : reqStr slots f key = .ok t) : slots f = some (.str t) := by
  unfold reqStr at h
  cases hs : slots f with
  | none => rw [hs] at h; exact Except.noConfusion h
  | some j => rw [hs] at h; rw [asStr_ok h]

theorem reqBool_ok {F : Type} {slots : F → Option Json} {f : F} {key : String}
    {b : Bool} (h : reqBool slots f key = .ok b) : slots f = some (.bool b) := by
  unfold reqBool at h
  cases hs : slots f with
  | none => rw [hs] at h; exact Except.noConfusion h
  | some j => rw [hs] at h; rw [asBool_ok h]


theorem collectFields_pres {F : Type} [DecidableEq F] (keyOf : String → Option F)
    (fields : List (String × Json)) :
    ∀ (s s' : F → Option Json) (f : F) (v : Json),
      collectFields keyOf fields s = .ok s' → s f = some v → s' f = some v := by
  induction fields with
  | nil =>
    intro s s' f v hok hf
    simp only [collectFields, Except.ok.injEq] at hok
    rw [← hok]; exact hf
  | cons kv rest ih =>
    intro s s' f v hok hf
    obtain ⟨k, w⟩ := kv
    simp only [collectFields] at hok
    split at hok
    · exact ih s s' f v hok hf
    · rename_i g hkey
      split at hok
      · exact Except.noConfusion hok
      · rename_i hg
        have hfg : f ≠ g := by
          intro hc; rw [hc, hg] at hf; exact Option.noConfusion hf
        refine ih _ s' f v hok ?_
        simp only [if_neg hfg]
        exact hf

theorem collectFields_lookup {F : Type} [DecidableEq F] (keyOf : String → Option F)
    (fkey : F → String) (hk : ∀ k f, keyOf k = some f ↔ k = fkey f)
    (fields : List (String × Json)) :
    ∀ (s s' : F → Option Json) (f : F),
      collectFields keyOf fields s = .ok s' → s f = none →
      s' f = jlookup fields (fkey f) := by
  induction fields with
  | nil =>
    intro s s' f hok hf
    simp only [collectFields, Except.ok.injEq] at hok
    rw [← hok, hf]; rfl
  | cons kv rest ih =>
    intro s s' f hok hf
    obtain ⟨k, w⟩ := kv
    simp only [collectFields] at hok
    split at hok
    · rename_i hkey
      have hkf : k ≠ fkey f := by
        intro hc
        rw [(hk k f).2 hc] at hkey
        exact Option.noConfusion hkey
      rw [jlookup, if_neg hkf]
      exact ih s s' f hok hf
    · rename_i g hkey
      have hkg : k = fkey g := (hk k g).1 hkey
      split at hok
      · exact Except.noConfusion hok
      · rename_i hg
        by_cases hfg : f = g
        · subst hfg
          have hres : s' f = some w :=
            collectFields_pres keyOf rest _ s' f w hok (by simp)
          rw [hres, jlookup, if_pos hkg]
        · have hkf : k ≠ fkey f := by
            intro hc
            have hsome : keyOf k = some f := (hk k f).2 hc
            rw [hkey] at hsome
            injection hsome with h3
            exact hfg h3.symm
          rw [jlookup, if_neg hkf]
          refine ih _ s' f hok ?_
          simp only [if_neg hfg]
          exact hf

theorem optSlotU64_ok {o : Option Json} {r : Option Nat}
    (h : optSlotU64 o = .ok r) : (o = none ∧ r = none) ∨ o = some (epFileJson r) := by
  cases o with
  | none =>
    left
    simp only [optSlotU64, Except.ok.injEq] at h
    exact ⟨rfl, h.symm⟩
  | some j =>
    right
    simp only [optSlotU64] at h
    rw [asOptU64_ok h]

theorem epKey_iff (k : String) (f : EpField) :
    epFieldOfKey k = some f ↔ k = EpField.key f := by
  cases f <;> unfold epFieldOfKey EpField.key <;> split_ifs <;> simp_all

/-- What a successful `EpisodeInfo` decode says about the original
object's fields: each required field is present with exactly the value
the record's field re-encodes to, and the `Option` field is either
absent or present with that value. -/
theorem decodeEpisode_lookup {fields : List (String × Json)} {e : EpisodeInfo}
    (h : decodeEpisode (.obj fields) = .ok e) :
    jlookup fields "id" = some (.num e.id) ∧
    jlookup fields "seriesId" = some (.num e.series_id) ∧
    (jlookup fields "episodeFileId" = none ∨
      jlookup fields "episodeFileId" = some (epFileJson e.episode_file_id)) ∧
    jlookup fields "title" = some (.str e.title) ∧
    jlookup fields "seasonNumber" = some (.num e.season_number) ∧
    jlookup fields "episodeNumber" = some (.num e.episode_number) ∧
    jlookup fields "monitored" = some (.bool e.monitored) := by
  dsimp only [decodeEpisode] at h
  split at h
  · exact Except.noConfusion h
  rename_i slots hcol
  split at h <;> try exact Except.noConfusion h
  rename_i id1 sid1 efid1 t1 sn1 en1 m1 hid hsid hef ht hsn hen hm
  injection h with hrec
  subst hrec
  have hlk : ∀ f : EpField, slots f = jlookup fields (EpField.key f) :=
    fun f => collectFields_lookup epFieldOfKey EpField.key epKey_iff fields
      (fun _ => none) slots f hcol rfl
  simp only [EpField.key] at hlk
  refine ⟨?_, ?_, ?_, ?_, ?_, ?_, ?_⟩
  · dsimp only
    rw [← hlk .id, (reqU64_ok hid).1]
  · dsimp only
    rw [← hlk .seriesId, (reqU64_ok hsid).1]
  · dsimp only
    rcases optSlotU64_ok hef with ⟨ho, hr⟩ | ho
    · left; rw [← hlk .episodeFileId, ho]
    · right; rw [← hlk .episodeFileId, ho]
  · dsimp only
    rw [← hlk .title, reqStr_ok ht]
  · dsimp only
    rw [← hlk .seasonNumber, (reqU32_ok hsn).1]
  · dsimp only
    rw [← hlk .episodeNumber, (reqU32_ok hen).1]
  · dsimp only
    rw [← hlk .monitored, reqBool_ok hm]

theorem asU64_eval {n : Nat} (hb : n < 2 ^ 64) :
    Json.asU64 (.num (Int.ofNat n)) = .ok n := by
  rw [Json.asU64, if_pos hb]

theorem asU32_eval {n : Nat} (hb : n < 2 ^ 32) :
    Json.asU32 (.num (Int.ofNat n)) = .ok n := by
  rw [Json.asU32, if_pos hb]

theorem optSlotU64_eval {sl : Option Json} {o : Option Nat}
    (hs : sl = some (epFileJson o)) (hb : ∀ n, o = some n → n < 2 ^ 64) :
    optSlotU64 sl = .ok o := by
  subst hs
  cases o with
  | none => rfl
  | some n =>
    show Json.asOptU64 (.num (Int.ofNat n)) = .ok (some n)
    simp only [Json.asOptU64]
    rw [asU64_eval (hb n rfl)]

/-- The field-collection pass succeeds whenever the object's keys are
distinct and no known field is already filled. -/
theorem collectFields_total {F : Type} [DecidableEq F] (keyOf : String → Option F)
    (fkey : F → String) (hk : ∀ k f, keyOf k = some f ↔ k = fkey f)
    (fields : List (String × Json)) :
    ∀ s : F → Option Json,
      (List.map Prod.fst fields).Nodup →
      (∀ f : F, s f ≠ none → fkey f ∉ List.map Prod.fst fields) →
      ∃ s', collectFields keyOf fields s = .ok s' := by
  induction fields with
  | nil => intro s _ _; exact ⟨s, rfl⟩
  | cons kv rest ih =>
    intro s hnd hdisj
    obtain ⟨k, w⟩ := kv
    rw [List.map_cons] at hnd hdisj
    obtain ⟨hknd, hrnd⟩ := List.nodup_cons.1 hnd
    simp only [collectFields]
    cases hkey : keyOf k with
    | none =>
      exact ih s hrnd (fun f hf hmem => hdisj f hf (List.mem_cons_of_mem _ hmem))
    | some g =>
      have hkg : k = fkey g := (hk k g).1 hkey
      have hg : s g = none := by
        by_contra hne
        exact hdisj g hne (by rw [← hkg]; exact List.mem_cons_self _ _)
      show ∃ s',
        (match s g with
         | some _ => Except.error (DecodeError.duplicateField k)
         | none => collectFields keyOf rest fun g' => if g' = g then some w else s g') =
          Except.ok s'
      rw [hg]
      refine ih _ hrnd ?_
      intro f hf hmem
      by_cases hfg : f = g
      · subst hfg
        exact hknd (hkg ▸ hmem)
      · have hsf : s f ≠ none := by
          intro hC
          apply hf
          simp only [if_neg hfg]
          exact hC
        exact hdisj f hsf (List.mem_cons_of_mem _ hmem)

theorem collect_toJson (e : EpisodeInfo) :
    collectFields epFieldOfKey
      [("id", .num e.id), ("seriesId", .num e.series_id),
       ("episodeFileId", epFileJson e.episode_file_id),
       ("title", .str e.title), ("seasonNumber", .num e.season_number),
       ("episodeNumber", .num e.episode_number), ("monitored", .bool e.monitored)]
      (fun _ => none) = .ok (epSlots e) := by
  obtain ⟨slots, hc⟩ :=
    collectFields_total epFieldOfKey EpField.key epKey_iff
      [("id", .num e.id), ("seriesId", .num e.series_id),
       ("episodeFileId", epFileJson e.episode_file_id),
       ("title", .str e.title), ("seasonNumber", .num e.season_number),
       ("episodeNumber", .num e.episode_number), ("monitored", .bool e.monitored)]
      (fun _ => none)
      (by simp only [List.map_cons, List.map_nil]; decide)
      (fun f hf => absurd rfl hf)
  rw [hc]
  refine congrArg Except.ok (funext fun f => ?_)
  have hlk := collectFields_lookup epFieldOfKey EpField.key epKey_iff _
    (fun _ => none) slots f hc rfl
  rw [hlk]
  cases f <;> rfl

/-- Decode–encode round trip for `EpisodeInfo`: re-decoding an encoded
record yields the record back. -/
theorem decode_toJson {e : EpisodeInfo} (hwf : e.wf) :
    decodeEpisode e.toJson = .ok e := by
  obtain ⟨b1, b2, b3, b4, b5⟩ := hwf
  have h1 : reqU64 (epSlots e) .id "id" = .ok e.id := by
    show Json.asU64 (.num e.id) = .ok e.id
    exact asU64_eval b1
  have h2 : reqU64 (epSlots e) .seriesId "seriesId" = .ok e.series_id := by
    show Json.asU64 (.num e.series_id) = .ok e.series_id
    exact asU64_eval b2
  have h3 : optSlotU64 (epSlots e .episodeFileId) = .ok e.episode_file_id :=
    optSlotU64_eval rfl b3
  have h4 : reqStr (epSlots e) .title "title" = .ok e.title := rfl
  have h5 : reqU32 (epSlots e) .seasonNumber "seasonNumber" = .ok e.season_number := by
    show Json.asU32 (.num e.season_number) = .ok e.season_number
    exact asU32_eval b4
  have h6 : reqU32 (epSlots e) .episodeNumber "episodeNumber" = .ok e.episode_number := by
    show Json.asU32 (.num e.episode_number) = .ok e.episode_number
    exact asU32_eval b5
  have h7 : reqBool (epSlots e) .monitored "monitored" = .ok e.monitored := rfl
  dsimp only [EpisodeInfo.toJson, decodeEpisode]
  rw [collect_toJson e]
  simp only [h1, h2, h3, h4, h5, h6, h7]

theorem sameKeys_mem {a b : List String} (h : sameKeys a b = true) :
    (∀ k, k ∈ a → k ∈ b) ∧ (∀ k, k ∈ b → k ∈ a) := by
  unfold sameKeys at h
  rw [Bool.and_eq_true] at h
  obtain ⟨h1, h2⟩ := h
  exact ⟨fun k hk => of_decide_eq_true (List.all_eq_true.1 h1 k hk),
         fun k hk => of_decide_eq_true (List.all_eq_true.1 h2 k hk)⟩

/-- The frame property of the read-modify-write: when the read body
decodes and its key set is exactly the seven declared wire fields, the
write body agrees with the read body on every key but `monitored`. -/
theorem episode_frame {fields : List (String × Json)} {e : EpisodeInfo}
    (hdec : decodeEpisode (.obj fields) = .ok e)
    (hkeys : sameKeys (List.map Prod.fst fields) episodeKeys = true) :
    agreesExceptMonitored (.obj fields)
      (EpisodeInfo.toJson { e with monitored := false }) := by
  obtain ⟨l1, l2, l3, l4, l5, l6, l7⟩ := decodeEpisode_lookup hdec
  intro k hk
  have hk7 : k = "id" ∨ k = "seriesId" ∨ k = "episodeFileId" ∨ k = "title" ∨
      k = "seasonNumber" ∨ k = "episodeNumber" ∨ k = "monitored" := by
    rcases List.mem_append.1 hk with hmf | hmf
    · simpa [episodeKeys] using (sameKeys_mem hkeys).1 k hmf
    · simpa using hmf
  rcases hk7 with rfl | rfl | rfl | rfl | rfl | rfl | rfl
  · right; rw [l1]; rfl
  · right; rw [l2]; rfl
  · right
    rcases l3 with hnone | hsome
    · exfalso
      have hmemk : "episodeFileId" ∈ List.map Prod.fst fields :=
        (sameKeys_mem hkeys).2 _ (by simp [episodeKeys])
      obtain ⟨v, hv⟩ := jlookup_isSome_of_mem hmemk
      rw [hv] at hnone
      exact Option.noConfusion hnone
    · rw [hsome]; rfl
  · right; rw [l4]; rfl
  · right; rw [l5]; rfl
  · right; rw [l6]; rfl
  · left; rfl

/-! ## Operational lemmas -/

theorem handle_error_2xx {resp : HttpResponse}
    (h : 200 ≤ resp.status ∧ resp.status < 300) : handle_error resp = .ok resp := by
  unfold handle_error
  rw [if_pos h]

theorem handle_error_non2xx {resp : HttpResponse}
    (h : ¬(200 ≤ resp.status ∧ resp.status < 300)) :
    handle_error resp = .error (.httpStatus resp.status) := by
  unfold handle_error
  rw [if_neg h]

theorem ge_trace {σ : Type} (c : SonarrClient) (svc : Service σ) (s : σ) (eid : Nat) :
    (c.get_episode svc s eid).2.1 =
      [c.mkRequest .get (episodeUrl c eid) [] none] := by
  unfold SonarrClient.get_episode episodeUrl
  dsimp only
  split
  · rfl
  · split
    · rfl
    · split <;> rfl

theorem ge_ok {σ : Type} (c : SonarrClient) (svc : Service σ) (s : σ) (eid : Nat)
    {s1 : σ} {resp : HttpResponse} {e : EpisodeInfo}
    (hsvc : svc s (c.mkRequest .get (episodeUrl c eid) [] none) = (s1, .ok resp))
    (h2xx : 200 ≤ resp.status ∧ resp.status < 300)
    (hdec : decodeEpisode resp.body = .ok e) :
    c.get_episode svc s eid =
      (s1, [c.mkRequest .get (episodeUrl c eid) [] none], .ok e) := by
  unfold SonarrClient.get_episode
  unfold episodeUrl at hsvc
  simp only [hsvc, handle_error_2xx h2xx, hdec, episodeUrl]

theorem um_of_ge_err {σ : Type} (c : SonarrClient) (svc : Service σ) (s : σ)
    (eid : Nat) {s1 : σ} {tr : List Request} {err : ClientError}
    (hge : c.get_episode svc s eid = (s1, tr, .error err)) :
    c.unmonitor_episode svc s eid = (s1, tr, .error err) := by
  unfold SonarrClient.unmonitor_episode
  simp only [hge]

theorem um_of_ge_ok {σ : Type} (c : SonarrClient) (svc : Service σ) (s : σ)
    (eid : Nat) {s1 : σ} {tr : List Request} {e : EpisodeInfo}
    (hge : c.get_episode svc s eid = (s1, tr, .ok e)) :
    c.unmonitor_episode svc s eid =
      (let putReq := c.mkRequest .put (episodeUrl c eid) []
        (some (EpisodeInfo.toJson { e with monitored := false }))
       match svc s1 putReq with
       | (s2, .error _) => (s2, tr ++ [putReq], .error .transport)
       | (s2, .ok resp) =>
         match handle_error resp with
         | .error err => (s2, tr ++ [putReq], .error err)
         | .ok _ => (s2, tr ++ [putReq], .ok ())) := by
  unfold SonarrClient.unmonitor_episode episodeUrl
  simp only [hge]

theorem fake_put_commit (c : SonarrClient) (rec e2 : EpisodeInfo) (hwf2 : e2.wf)
    (u : Url) (q : List (String × String)) :
    fakeService { record := rec, failPut := false }
      (c.mkRequest .put u q (some (EpisodeInfo.toJson e2))) =
      ({ record := e2, failPut := false },
       .ok { status := 202, body := EpisodeInfo.toJson e2 }) := by
  simp only [fakeService, SonarrClient.mkRequest, decode_toJson hwf2]
  rfl

/-- A successful unmonitor run against the fake service: both requests
issued, remote record committed with `monitored := false`. -/
theorem fake_unmonitor_ok (c : SonarrClient) (rec : EpisodeInfo) (hwf : rec.wf)
    (eid : Nat) :
    c.unmonitor_episode fakeService { record := rec, failPut := false } eid =
      ({ record := { rec with monitored := false }, failPut := false },
       [c.mkRequest .get (episodeUrl c eid) [] none,
        c.mkRequest .put (episodeUrl c eid) []
          (some (EpisodeInfo.toJson { rec with monitored := false }))],
       .ok ()) := by
  have hsvc : fakeService { record := rec, failPut := false }
      (c.mkRequest .get (episodeUrl c eid) [] none) =
      ({ record := rec, failPut := false },
       .ok { status := 200, body := rec.toJson }) := rfl
  have h2 : (200 : Nat) ≤ 200 ∧ (200 : Nat) < 300 := by decide
  have hge := ge_ok c fakeService { record := rec, failPut := false } eid
    hsvc h2 (decode_toJson hwf)
  rw [um_of_ge_ok c fakeService _ eid hge]
  dsimp only
  rw [fake_put_commit c rec { rec with monitored := false } hwf (episodeUrl c eid) []]
  rfl

/-- A failed-PUT unmonitor run against the fake service: both requests
issued, error surfaced, remote state untouched. -/
theorem fake_unmonitor_fail (c : SonarrClient) (rec : EpisodeInfo) (hwf : rec.wf)
    (eid : Nat) :
    c.unmonitor_episode fakeService { record := rec, failPut := true } eid =
      ({ record := rec, failPut := true },
       [c.mkRequest .get (episodeUrl c eid) [] none,
        c.mkRequest .put (episodeUrl c eid) []
          (some (EpisodeInfo.toJson { rec with monitored := false }))],
       .error (.httpStatus 500)) := by
  have hsvc : fakeService { record := rec, failPut := true }
      (c.mkRequest .get (episodeUrl c eid) [] none) =
      ({ record := rec, failPut := true },
       .ok { status := 200, body := rec.toJson }) := rfl
  have h2 : (200 : Nat) ≤ 200 ∧ (200 : Nat) < 300 := by decide
  have hge := ge_ok c fakeService { record := rec, failPut := true } eid
    hsvc h2 (decode_toJson hwf)
  rw [um_of_ge_ok c fakeService _ eid hge]
  rfl

theorem series_ok {σ : Type} (c : SonarrClient) (svc : Service σ) (s : σ)
    (provider_id : String) {s1 : σ} {resp : HttpResponse} {rs : List SeriesInfo}
    (hsvc : svc s (c.mkRequest .get (c.base_url.join "series")
      [("tvdbId", provider_id)] none) = (s1, .ok resp))
    (h2xx : 200 ≤ resp.status ∧ resp.status < 300)
    (hdec : decodeSeriesList resp.body = .ok rs) :
    c.series_by_tvdb_id svc s provider_id =
      (s1, [c.mkRequest .get (c.base_url.join "series")
        [("tvdbId", provider_id)] none], .ok rs) := by
  unfold SonarrClient.series_by_tvdb_id
  simp only [hsvc, handle_error_2xx h2xx, hdec]

theorem delete_ok {σ : Type} (c : SonarrClient) (svc : Service σ) (s : σ)
    (episode_file_id : Nat) {s1 : σ} {resp : HttpResponse}
    (hsvc : svc s (c.mkRequest .delete
      ((c.base_url.join "episodefile/").join (decRepr episode_file_id)) [] none) =
      (s1, .ok resp))
    (h2xx : 200 ≤ resp.status ∧ resp.status < 300) :
    c.delete_episode_file svc s episode_file_id =
      (s1, [c.mkRequest .delete
        ((c.base_url.join "episodefile/").join (decRepr episode_file_id)) [] none],
       .ok ()) := by
  unfold SonarrClient.delete_episode_file
  simp only [hsvc, handle_error_2xx h2xx]

theorem series_trace {σ : Type} (c : SonarrClient) (svc : Service σ) (s : σ)
    (provider_id : String) :
    (c.series_by_tvdb_id svc s provider_id).2.1 =
      [c.mkRequest .get (c.base_url.join "series")
        [("tvdbId", provider_id)] none] := by
  unfold SonarrClient.series_by_tvdb_id
  dsimp only
  split
  · rfl
  · split
    · rfl
    · split <;> rfl

theorem tags_trace {σ : Type} (c : SonarrClient) (svc : Service σ) (s : σ) :
    (c.tags svc s).2.1 = [c.mkRequest .get (c.base_url.join "tag") [] none] := by
  unfold SonarrClient.tags
  dsimp only
  split
  · rfl
  · split
    · rfl
    · split <;> rfl

theorem episodes_trace {σ : Type} (c : SonarrClient) (svc : Service σ) (s : σ)
    (series_id : Nat) :
    (c.episodes_by_series svc s series_id).2.1 =
      [c.mkRequest .get (c.base_url.join "episode")
        [("seriesId", decRepr series_id)] none] := by
  unfold SonarrClient.episodes_by_series
  dsimp only
  split
  · rfl
  · split
    · rfl
    · split <;> rfl

theorem delete_trace {σ : Type} (c : SonarrClient) (svc : Service σ) (s : σ)
    (episode_file_id : Nat) :
    (c.delete_episode_file svc s episode_file_id).2.1 =
      [c.mkRequest .delete
        ((c.base_url.join "episodefile/").join (decRepr episode_file_id)) [] none] := by
  unfold SonarrClient.delete_episode_file
  dsimp only
  split
  · rfl
  · split <;> rfl

theorem um_trace {σ : Type} (c : SonarrClient) (svc : Service σ) (s : σ) (eid : Nat) :
    (c.unmonitor_episode svc s eid).2.1 =
      [c.mkRequest .get (episodeUrl c eid) [] none] ∨
    ∃ b, (c.unmonitor_episode svc s eid).2.1 =
      [c.mkRequest .get (episodeUrl c eid) [] none,
       c.mkRequest .put (episodeUrl c eid) [] (some b)] := by
  rcases hge : c.get_episode svc s eid with ⟨s1, tr, res⟩
  have htr := ge_trace c svc s eid
  rw [hge] at htr
  dsimp only at htr
  cases res with
  | error err =>
    left
    rw [um_of_ge_err c svc s eid hge]
    exact htr
  | ok e =>
    right
    refine ⟨EpisodeInfo.toJson { e with monitored := false }, ?_⟩
    rw [um_of_ge_ok c svc s eid hge]
    dsimp only
    split
    · rw [htr]; rfl
    · split
      · rw [htr]; rfl
      · rw [htr]; rfl

theorem decodeList_spec {α : Type} (f : Json → Except DecodeError α) :
    ∀ {xs : List Json} {rs : List α}, decodeList f xs = .ok rs →
      rs.length = xs.length ∧
      ∀ i (h1 : i < xs.length) (h2 : i < rs.length),
        f (xs.get ⟨i, h1⟩) = .ok (rs.get ⟨i, h2⟩) := by
  intro xs
  induction xs with
  | nil =>
    intro rs h
    simp only [decodeList, Except.ok.injEq] at h
    subst h
    exact ⟨rfl, fun i h1 _ => absurd h1 (by simp)⟩
  | cons x rest ih =>
    intro rs h
    simp only [decodeList, bind, Except.bind] at h
    split at h
    · exact Except.noConfusion h
    rename_i a ha
    split at h
    · exact Except.noConfusion h
    rename_i as has
    injection h with h3
    subst h3
    obtain ⟨hlen, hord⟩ := ih has
    refine ⟨by simp [hlen], ?_⟩
    intro i h1 h2
    cases i with
    | zero => simpa using ha
    | succ j =>
      simpa using hord j (by simpa using h1) (by simpa using h2)

theorem digitChar_ne_slash (n : Nat) : digitChar n ≠ '/' := by
  unfold digitChar
  split_ifs <;> decide

theorem decDigitsAux_ne_slash :
    ∀ (fuel n : Nat), ∀ c ∈ decDigitsAux fuel n, c ≠ '/' := by
  intro fuel
  induction fuel with
  | zero => intro n c hc; simp [decDigitsAux] at hc
  | succ m ih =>
    intro n c hc
    unfold decDigitsAux at hc
    split at hc
    · rw [List.mem_singleton] at hc
      rw [hc]
      exact digitChar_ne_slash n
    · rcases List.mem_append.1 hc with hmem | hmem
      · exact ih _ c hmem
      · rw [List.mem_singleton] at hmem
        rw [hmem]
        exact digitChar_ne_slash _

theorem decRepr_ne_slash (n : Nat) : ∀ c ∈ (decRepr n).data, c ≠ '/' := by
  intro c hc
  exact decDigitsAux_ne_slash (n + 1) n c hc

theorem join_decRepr (u : Url) (n : Nat) :
    u.join (decRepr n) = { u with path := dirOf u.path ++ decRepr n } := by
  unfold Url.join
  rw [if_neg]
  intro hh
  cases hd : (decRepr n).data with
  | nil => rw [hd] at hh; exact Option.noConfusion hh
  | cons c rest =>
    rw [hd] at hh
    injection hh with hc
    exact decRepr_ne_slash n c (by rw [hd]; exact List.mem_cons_self _ _) hc

theorem join_notslash (u : Url) (rel : String)
    (hrel : rel.data.head? ≠ some '/') :
    u.join rel = { u with path := dirOf u.path ++ rel } := by
  unfold Url.join
  rw [if_neg hrel]

/-! ## Construction characterization -/

theorem new_err_url {base_url api_key : String} {e : UrlError}
    (h : Url.parse base_url = .error e) :
    SonarrClient.new base_url api_key = .error (.invalidUrl e) := by
  unfold SonarrClient.new
  rw [h]

theorem new_err_key {base_url api_key : String} {u : Url}
    (hp : Url.parse base_url = .ok u)
    (hk : api_key.data.all validHeaderChar = false) :
    SonarrClient.new base_url api_key = .error .invalidCredential := by
  unfold SonarrClient.new
  rw [hp]
  unfold auth_headers
  rw [if_neg]
  simp [hk]

theorem new_ok {base_url api_key : String} {u : Url}
    (hp : Url.parse base_url = .ok u)
    (hk : api_key.data.all validHeaderChar = true) :
    SonarrClient.new base_url api_key =
      .ok { default_headers := [("x-api-key", { value := api_key, sensitive := true })],
            base_url := { u with path := "/api/v3/" } } := by
  unfold SonarrClient.new
  rw [hp]
  unfold auth_headers
  rw [if_pos hk]
  rfl

theorem new_char {b k : String} {c : SonarrClient}
    (h : SonarrClient.new b k = .ok c) :
    c.base_url.path = "/api/v3/" ∧
    c.default_headers = [("x-api-key", { value := k, sensitive := true })] := by
  unfold SonarrClient.new at h
  cases hp : Url.parse b with
  | error e => rw [hp] at h; exact Except.noConfusion h
  | ok u =>
    rw [hp] at h
    unfold auth_headers at h
    by_cases hak : k.data.all validHeaderChar = true
    · rw [if_pos hak] at h
      injection h with h3
      rw [← h3]
      exact ⟨rfl, rfl⟩
    · rw [if_neg hak] at h
      exact Except.noConfusion h

/-! ## The claims -/

/-- C2: for every episode identifier, if the GET of step 1 of
`unmonitor_episode` fails (transport error, non-2xx status, or decode
failure — exactly the error cases of `get_episode`), `unmonitor_episode`
returns that error and no PUT request is issued: every issued request is
a GET. -/
theorem C2_get_fails_no_put {σ : Type} (c : SonarrClient) (svc : Service σ)
    (s : σ) (eid : Nat) {s1 : σ} {tr : List Request} {err : ClientError}
    (hge : c.get_episode svc s eid = (s1, tr, .error err)) :
    c.unmonitor_episode svc s eid = (s1, tr, .error err) ∧
    ∀ r ∈ tr, r.method = .get := by
  refine ⟨um_of_ge_err c svc s eid hge, ?_⟩
  intro r hr
  have htr := ge_trace c svc s eid
  rw [hge] at htr
  dsimp only at htr
  rw [htr, List.mem_singleton] at hr
  subst hr
  rfl

/-- Witness for C2: a service answering 404 — the call returns the
HTTP-status error and the only request issued is the GET. -/
theorem C2_get_fails_no_put_witness :
    (wClient.unmonitor_episode svc404 () 7 =
      ((), [wClient.mkRequest .get (episodeUrl wClient 7) [] none],
       .error (.httpStatus 404)) ∧
     ∀ r ∈ [wClient.mkRequest .get (episodeUrl wClient 7) [] none],
       r.method = .get) :=
  C2_get_fails_no_put wClient svc404 () 7 rfl

/-- C3: against the recorded-state fake service, `unmonitor_episode`
returns unit exactly when the PUT is not failure-injected; with the PUT
failing, the call reports the HTTP-status failure and the recorded remote
state is unchanged from before step 1. -/
theorem C3_put_failure_reported (c : SonarrClient) (rec : EpisodeInfo)
    (hwf : rec.wf) (eid : Nat) (fp : Bool) :
    ((c.unmonitor_episode fakeService { record := rec, failPut := fp } eid).2.2 =
        .ok () ↔ fp = false) ∧
    (fp = true →
      (c.unmonitor_episode fakeService { record := rec, failPut := fp } eid).1 =
        { record := rec, failPut := fp } ∧
      (c.unmonitor_episode fakeService { record := rec, failPut := fp } eid).2.2 =
        .error (.httpStatus 500)) := by
  cases fp
  · rw [fake_unmonitor_ok c rec hwf eid]
    simp
  · rw [fake_unmonitor_fail c rec hwf eid]
    simp

/-- Witness for C3: concrete record, failing PUT — error surfaced,
state untouched. -/
theorem C3_put_failure_reported_witness :
    ((wClient.unmonitor_episode fakeService
        { record := cEpisode, failPut := true } 5).2.2 = .ok () ↔ true = false) ∧
    (true = true →
      (wClient.unmonitor_episode fakeService
        { record := cEpisode, failPut := true } 5).1 =
        { record := cEpisode, failPut := true } ∧
      (wClient.unmonitor_episode fakeService
        { record := cEpisode, failPut := true } 5).2.2 =
        .error (.httpStatus 500)) :=
  C3_put_failure_reported wClient cEpisode (by decide) 5 true

/-- C9: the write is unconditional — against the fake service the PUT
body carries `monitored := false` whatever the initial `monitored` value
was, the call succeeds, the remote record ends at
`monitored := false`, and a second successful call leaves the same end
state as one call. -/
theorem C9_unmonitor_idempotent (c : SonarrClient) (rec : EpisodeInfo)
    (hwf : rec.wf) (eid : Nat) :
    (c.unmonitor_episode fakeService { record := rec, failPut := false } eid).2.2 =
      .ok () ∧
    (c.unmonitor_episode fakeService { record := rec, failPut := false } eid).2.1 =
      [c.mkRequest .get (episodeUrl c eid) [] none,
       c.mkRequest .put (episodeUrl c eid) []
         (some (EpisodeInfo.toJson { rec with monitored := false }))] ∧
    objLookup (EpisodeInfo.toJson { rec with monitored := false }) "monitored" =
      some (.bool false) ∧
    (c.unmonitor_episode fakeService { record := rec, failPut := false } eid).1.record =
      { rec with monitored := false } ∧
    (c.unmonitor_episode fakeService
        (c.unmonitor_episode fakeService { record := rec, failPut := false } eid).1
        eid).1.record =
      { rec with monitored := false } := by
  have h1 := fake_unmonitor_ok c rec hwf eid
  have h2 := fake_unmonitor_ok c { rec with monitored := false } hwf eid
  rw [h1]
  exact ⟨rfl, rfl, rfl, rfl, by rw [h2]⟩

/-- Witness for C9: concrete initially-monitored record — both calls end
with the remote record unmonitored. -/
theorem C9_unmonitor_idempotent_witness :
    (wClient.unmonitor_episode fakeService
        { record := cEpisode, failPut := false } 5).2.2 = .ok () ∧
    (wClient.unmonitor_episode fakeService
        { record := cEpisode, failPut := false } 5).2.1 =
      [wClient.mkRequest .get (episodeUrl wClient 5) [] none,
       wClient.mkRequest .put (episodeUrl wClient 5) []
         (some (EpisodeInfo.toJson { cEpisode with monitored := false }))] ∧
    objLookup (EpisodeInfo.toJson { cEpisode with monitored := false }) "monitored" =
      some (.bool false) ∧
    (wClient.unmonitor_episode fakeService
        { record := cEpisode, failPut := false } 5).1.record =
      { cEpisode with monitored := false } ∧
    (wClient.unmonitor_episode fakeService
        (wClient.unmonitor_episode fakeService
          { record := cEpisode, failPut := false } 5).1 5).1.record =
      { cEpisode with monitored := false } :=
  C9_unmonitor_idempotent wClient cEpisode (by decide) 5

/-- C4 as stated is false on the code: with a malformed base URL and a
credential holding a control character, construction fails with
`InvalidUrl` — the URL is parsed before the key is validated — not with
`InvalidCredential`. -/
theorem C4_counterexample :
    ("\x00".data.all validHeaderChar = false) ∧
    SonarrClient.new "not a url" "\x00" =
      .error (.invalidUrl .relativeUrlWithoutBase) ∧
    SonarrClient.new "not a url" "\x00" ≠ .error .invalidCredential := by
  refine ⟨rfl, rfl, ?_⟩
  intro h
  rw [show SonarrClient.new "not a url" "\x00" =
      .error (.invalidUrl .relativeUrlWithoutBase) from rfl] at h
  exact ClientError.noConfusion (Except.error.inj h)

/-- C4 (amended): a malformed base URL always fails construction with
`InvalidUrl`; an API key holding a character illegal in an HTTP header
value fails construction with `InvalidCredential` whenever the base URL
itself parses (the URL is validated first, so with both invalid the
`InvalidUrl` error wins). -/
theorem C4_construction_errors :
    (∀ (b k : String) (e : UrlError), Url.parse b = .error e →
      SonarrClient.new b k = .error (.invalidUrl e)) ∧
    (∀ (b k : String) (u : Url), Url.parse b = .ok u →
      k.data.all validHeaderChar = false →
      SonarrClient.new b k = .error .invalidCredential) :=
  ⟨fun _ _ _ hp => new_err_url hp, fun _ _ _ hp hk => new_err_key hp hk⟩

/-- Witness for C4: `not a url` yields `InvalidUrl`; a control-character
key against a well-formed URL yields `InvalidCredential`. -/
theorem C4_construction_errors_witness :
    SonarrClient.new "not a url" "k" =
      .error (.invalidUrl .relativeUrlWithoutBase) ∧
    SonarrClient.new "http://h" "\x00" = .error .invalidCredential :=
  ⟨C4_construction_errors.1 "not a url" "k" .relativeUrlWithoutBase rfl,
   C4_construction_errors.2 "http://h" "\x00"
     { scheme := "http", authority := "h", path := "/" } rfl rfl⟩

/-- C7: whenever the base URL string parses, the constructed client's
base URL is the parsed URL with its path forced to the fixed prefix
`/api/v3/`, whatever path was supplied; construction is a pure function
of its two string arguments (the embedding gives it no service to talk
to), so no request is issued. -/
theorem C7_path_forced {b k : String} {u : Url} {c : SonarrClient}
    (hp : Url.parse b = .ok u) (hnew : SonarrClient.new b k = .ok c) :
    c.base_url = { u with path := "/api/v3/" } ∧
    c.base_url.path = "/api/v3/" := by
  by_cases hak : k.data.all validHeaderChar = true
  · rw [new_ok hp hak] at hnew
    injection hnew with h3
    rw [← h3]
    exact ⟨rfl, rfl⟩
  · have hf : k.data.all validHeaderChar = false := by
      revert hak
      cases k.data.all validHeaderChar <;> simp
    rw [new_err_key hp hf] at hnew
    exact Except.noConfusion hnew

/-- Witness for C7: a base URL supplied with a custom path still ends at
`/api/v3/`. -/
theorem C7_path_forced_witness :
    Url.parse "http://h/custom/path" =
      .ok { scheme := "http", authority := "h", path := "/custom/path" } ∧
    ∃ c, SonarrClient.new "http://h/custom/path" "k" = .ok c ∧
      c.base_url = { scheme := "http", authority := "h", path := "/api/v3/" } ∧
      c.base_url.path = "/api/v3/" := by
  refine ⟨rfl,
    { default_headers := [("x-api-key", { value := "k", sensitive := true })],
      base_url := { scheme := "http", authority := "h", path := "/api/v3/" } },
    rfl, ?_⟩
  exact @C7_path_forced "http://h/custom/path" "k"
    { scheme := "http", authority := "h", path := "/custom/path" }
    { default_headers := [("x-api-key", { value := "k", sensitive := true })],
      base_url := { scheme := "http", authority := "h", path := "/api/v3/" } }
    rfl rfl

/-- C10: the empty string is a legal header value, so construction with
an empty API key succeeds (given a well-formed URL); `auth_headers`
succeeds exactly when every character of the key is legal in a header
value — there is no other validation of the credential. -/
theorem C10_empty_key_ok :
    (∀ (b : String) (u : Url), Url.parse b = .ok u →
      SonarrClient.new b "" =
        .ok { default_headers :=
                [("x-api-key", { value := "", sensitive := true })],
              base_url := { u with path := "/api/v3/" } }) ∧
    (∀ k : String, (∃ hm, auth_headers k = .ok hm) ↔
      k.data.all validHeaderChar = true) := by
  constructor
  · intro b u hp
    exact new_ok hp rfl
  · intro k
    constructor
    · rintro ⟨hm, hok⟩
      by_cases hak : k.data.all validHeaderChar = true
      · exact hak
      · unfold auth_headers at hok
        rw [if_neg hak] at hok
        exact Except.noConfusion hok
    · intro hak
      unfold auth_headers
      rw [if_pos hak]
      exact ⟨_, rfl⟩

/-- Witness for C10: an empty key constructs successfully against a
well-formed base URL, and `auth_headers` accepts the empty key. -/
theorem C10_empty_key_ok_witness :
    SonarrClient.new "http://h" "" =
      .ok { default_headers := [("x-api-key", { value := "", sensitive := true })],
            base_url := { scheme := "http", authority := "h", path := "/api/v3/" } } ∧
    ∃ hm, auth_headers "" = .ok hm :=
  ⟨C10_empty_key_ok.1 "http://h"
    { scheme := "http", authority := "h", path := "/" } rfl,
   (C10_empty_key_ok.2 "").2 rfl⟩

/-- C1 as stated is false on the code: `EpisodeInfo` declares only the
seven fields the client uses, with no catch-all, so serde silently drops
any other field of the read body from the re-encoded PUT body.  Against a
GET body carrying the extra field `absoluteEpisodeNumber`, the PUT body
the call issues no longer holds it, so the write body differs from the
read body in more than the `monitored` field. -/
theorem C1_counterexample :
    unmonitorWriteBody cBody = .ok cWriteBody ∧
    wClient.unmonitor_episode svcC1 () 1 =
      ((), [wClient.mkRequest .get (episodeUrl wClient 1) [] none,
            wClient.mkRequest .put (episodeUrl wClient 1) [] (some cWriteBody)],
       .ok ()) ∧
    objLookup cBody "monitored" = some (.bool true) ∧
    objLookup cBody "absoluteEpisodeNumber" = some (.num 5) ∧
    objLookup cWriteBody "absoluteEpisodeNumber" = none ∧
    ¬ agreesExceptMonitored cBody cWriteBody := by
  refine ⟨rfl, rfl, rfl, rfl, rfl, ?_⟩
  intro hagree
  rcases hagree "absoluteEpisodeNumber" (by decide) with h | h
  · exact absurd h (by decide)
  · exact Option.noConfusion h

/-- C1 (amended): when the body read in step 1 is a JSON object with
`monitored = true` whose key set is exactly the seven declared wire
fields, the body of the subsequent PUT differs from it only in
`monitored`, now `false`; every other field is preserved with value
equality.  (A field outside the declared set is dropped from the write
body — see the counterexample — so the key-set restriction is
necessary.) -/
theorem C1_unmonitor_frame {σ : Type} (c : SonarrClient) (svc : Service σ)
    (s : σ) (eid : Nat) {s1 : σ} {fields : List (String × Json)} {e : EpisodeInfo}
    (hsvc : svc s (c.mkRequest .get (episodeUrl c eid) [] none) =
      (s1, .ok { status := 200, body := .obj fields }))
    (hdec : decodeEpisode (.obj fields) = .ok e)
    (_hmon : e.monitored = true)
    (hkeys : sameKeys (List.map Prod.fst fields) episodeKeys = true) :
    (c.unmonitor_episode svc s eid).2.1 =
      [c.mkRequest .get (episodeUrl c eid) [] none,
       c.mkRequest .put (episodeUrl c eid) []
         (some (EpisodeInfo.toJson { e with monitored := false }))] ∧
    agreesExceptMonitored (.obj fields)
      (EpisodeInfo.toJson { e with monitored := false }) ∧
    objLookup (EpisodeInfo.toJson { e with monitored := false }) "monitored" =
      some (.bool false) := by
  have h2 : (200 : Nat) ≤ 200 ∧ (200 : Nat) < 300 := by decide
  have hge := ge_ok c svc s eid hsvc h2 hdec
  refine ⟨?_, episode_frame hdec hkeys, rfl⟩
  rw [um_of_ge_ok c svc s eid hge]
  dsimp only
  split
  · rfl
  · split <;> rfl

/-- Witness for the amended C1: a body holding exactly the seven
declared fields round-trips with only `monitored` flipped. -/
theorem C1_unmonitor_frame_witness :
    (wClient.unmonitor_episode svcC1b () 1).2.1 =
      [wClient.mkRequest .get (episodeUrl wClient 1) [] none,
       wClient.mkRequest .put (episodeUrl wClient 1) []
         (some (EpisodeInfo.toJson { cEpisode with monitored := false }))] ∧
    agreesExceptMonitored (.obj cFields7)
      (EpisodeInfo.toJson { cEpisode with monitored := false }) ∧
    objLookup (EpisodeInfo.toJson { cEpisode with monitored := false })
      "monitored" = some (.bool false) :=
  C1_unmonitor_frame wClient svcC1b () 1 rfl rfl rfl (by decide)

/-- C5: the constructed default header set holds the API key exactly
once under the fixed name `x-api-key`, marked sensitive; the `Debug`
rendering of the stored value is the constant `Sensitive` — equal across
any two constructed clients, whatever their keys, so the credential
never reaches debug text; and every request issued by any of the five
operations carries exactly the default header set. -/
theorem C5_auth_header {b key : String} {c : SonarrClient}
    (hnew : SonarrClient.new b key = .ok c) :
    headerCount c.default_headers "x-api-key" = 1 ∧
    headerGet c.default_headers "x-api-key" =
      some { value := key, sensitive := true } ∧
    Option.map HeaderValue.debugRender (headerGet c.default_headers "x-api-key") =
      some "Sensitive" ∧
    (∀ (b2 key2 : String) (c2 : SonarrClient), SonarrClient.new b2 key2 = .ok c2 →
      Option.map HeaderValue.debugRender
          (headerGet c2.default_headers "x-api-key") =
        Option.map HeaderValue.debugRender
          (headerGet c.default_headers "x-api-key")) ∧
    (∀ (σ : Type) (svc : Service σ) (s : σ) (pid : String),
      ∀ r ∈ (c.series_by_tvdb_id svc s pid).2.1, r.headers = c.default_headers) ∧
    (∀ (σ : Type) (svc : Service σ) (s : σ),
      ∀ r ∈ (c.tags svc s).2.1, r.headers = c.default_headers) ∧
    (∀ (σ : Type) (svc : Service σ) (s : σ) (sid : Nat),
      ∀ r ∈ (c.episodes_by_series svc s sid).2.1, r.headers = c.default_headers) ∧
    (∀ (σ : Type) (svc : Service σ) (s : σ) (fid : Nat),
      ∀ r ∈ (c.delete_episode_file svc s fid).2.1, r.headers = c.default_headers) ∧
    (∀ (σ : Type) (svc : Service σ) (s : σ) (eid : Nat),
      ∀ r ∈ (c.unmonitor_episode svc s eid).2.1, r.headers = c.default_headers) := by
  have hch := (new_char hnew).2
  refine ⟨?_, ?_, ?_, ?_, ?_, ?_, ?_, ?_, ?_⟩
  · rw [hch]; rfl
  · rw [hch]; rfl
  · rw [hch]; rfl
  · intro b2 key2 c2 hnew2
    rw [(new_char hnew2).2, hch]
    rfl
  · intro σ svc s pid r hr
    rw [series_trace, List.mem_singleton] at hr
    subst hr; rfl
  · intro σ svc s r hr
    rw [tags_trace, List.mem_singleton] at hr
    subst hr; rfl
  · intro σ svc s sid r hr
    rw [episodes_trace, List.mem_singleton] at hr
    subst hr; rfl
  · intro σ svc s fid r hr
    rw [delete_trace, List.mem_singleton] at hr
    subst hr; rfl
  · intro σ svc s eid r hr
    rcases um_trace c svc s eid with h | ⟨bb, h⟩
    · rw [h, List.mem_singleton] at hr
      subst hr; rfl
    · rw [h] at hr
      rcases List.mem_cons.1 hr with rfl | hr2
      · rfl
      · rw [List.mem_singleton] at hr2
        subst hr2; rfl

/-- Witness for C5 at the concrete client (`http://h`, key `k`). -/
theorem C5_auth_header_witness :
    headerCount wClient.default_headers "x-api-key" = 1 ∧
    headerGet wClient.default_headers "x-api-key" =
      some { value := "k", sensitive := true } ∧
    Option.map HeaderValue.debugRender
      (headerGet wClient.default_headers "x-api-key") = some "Sensitive" ∧
    (∀ (b2 key2 : String) (c2 : SonarrClient), SonarrClient.new b2 key2 = .ok c2 →
      Option.map HeaderValue.debugRender
          (headerGet c2.default_headers "x-api-key") =
        Option.map HeaderValue.debugRender
          (headerGet wClient.default_headers "x-api-key")) ∧
    (∀ (σ : Type) (svc : Service σ) (s : σ) (pid : String),
      ∀ r ∈ (wClient.series_by_tvdb_id svc s pid).2.1,
        r.headers = wClient.default_headers) ∧
    (∀ (σ : Type) (svc : Service σ) (s : σ),
      ∀ r ∈ (wClient.tags svc s).2.1, r.headers = wClient.default_headers) ∧
    (∀ (σ : Type) (svc : Service σ) (s : σ) (sid : Nat),
      ∀ r ∈ (wClient.episodes_by_series svc s sid).2.1,
        r.headers = wClient.default_headers) ∧
    (∀ (σ : Type) (svc : Service σ) (s : σ) (fid : Nat),
      ∀ r ∈ (wClient.delete_episode_file svc s fid).2.1,
        r.headers = wClient.default_headers) ∧
    (∀ (σ : Type) (svc : Service σ) (s : σ) (eid : Nat),
      ∀ r ∈ (wClient.unmonitor_episode svc s eid).2.1,
        r.headers = wClient.default_headers) :=
  @C5_auth_header "http://h" "k" wClient rfl

/-- C6: a 2xx series-collection response decodes to a sequence exactly
as long as the response array, each record decoded from the entry at the
same position (server order preserved); the empty body yields the empty
sequence as a non-error result. -/
theorem C6_series_decode {σ : Type} (c : SonarrClient) (svc : Service σ) (s : σ)
    (provider_id : String) {s1 : σ} {resp : HttpResponse} {xs : List Json}
    {rs : List SeriesInfo}
    (hsvc : svc s (c.mkRequest .get (c.base_url.join "series")
      [("tvdbId", provider_id)] none) = (s1, .ok resp))
    (h2xx : 200 ≤ resp.status ∧ resp.status < 300)
    (hbody : resp.body = .arr xs)
    (hdec : decodeList decodeSeries xs = .ok rs) :
    c.series_by_tvdb_id svc s provider_id =
      (s1, [c.mkRequest .get (c.base_url.join "series")
        [("tvdbId", provider_id)] none], .ok rs) ∧
    rs.length = xs.length ∧
    (∀ i (h1 : i < xs.length) (h2 : i < rs.length),
      decodeSeries (xs.get ⟨i, h1⟩) = .ok (rs.get ⟨i, h2⟩)) ∧
    (xs = [] → rs = []) := by
  have hds : decodeSeriesList resp.body = .ok rs := by
    rw [hbody]; exact hdec
  obtain ⟨hlen, hord⟩ := decodeList_spec decodeSeries hdec
  refine ⟨series_ok c svc s provider_id hsvc h2xx hds, hlen, hord, ?_⟩
  intro hxs
  subst hxs
  simp only [decodeList, Except.ok.injEq] at hdec
  exact hdec.symm

/-- Witness for C6: the lookup for `81189` answered with one entry
`{title: Breaking Bad, id: 42, tags: [1, 2]}` yields exactly that one
record. -/
theorem C6_series_decode_witness :
    wClient.series_by_tvdb_id svcC6 () "81189" =
      ((), [wClient.mkRequest .get (wClient.base_url.join "series")
        [("tvdbId", "81189")] none], .ok [cSeries]) ∧
    ([cSeries] : List SeriesInfo).length = cSeriesBody.length ∧
    (∀ i (h1 : i < cSeriesBody.length)
      (h2 : i < ([cSeries] : List SeriesInfo).length),
      decodeSeries (cSeriesBody.get ⟨i, h1⟩) =
        .ok (([cSeries] : List SeriesInfo).get ⟨i, h2⟩)) ∧
    (cSeriesBody = [] → ([cSeries] : List SeriesInfo) = []) :=
  C6_series_decode wClient svcC6 () "81189" rfl (by decide) rfl rfl

/-- C8: `delete_episode_file` issues exactly one DELETE whose URL path is
the fixed prefix followed by the identifier's decimal text as the final
segment (the rendering holds no `/`, so the input cannot alter the path
structure), with no query parameters; any 2xx response yields unit, the
response body never being decoded. -/
theorem C8_delete_by_path {b key : String} {c : SonarrClient} {σ : Type}
    (svc : Service σ) (s : σ) (fid : Nat)
    (hnew : SonarrClient.new b key = .ok c) :
    (c.delete_episode_file svc s fid).2.1 =
      [c.mkRequest .delete
        ((c.base_url.join "episodefile/").join (decRepr fid)) [] none] ∧
    (c.mkRequest .delete
      ((c.base_url.join "episodefile/").join (decRepr fid)) [] none).method =
      .delete ∧
    (c.mkRequest .delete
      ((c.base_url.join "episodefile/").join (decRepr fid)) [] none).query = [] ∧
    ((c.base_url.join "episodefile/").join (decRepr fid)).path =
      "/api/v3/episodefile/" ++ decRepr fid ∧
    (∀ ch ∈ (decRepr fid).data, ch ≠ '/') ∧
    (∀ (s1 : σ) (resp : HttpResponse),
      svc s (c.mkRequest .delete
        ((c.base_url.join "episodefile/").join (decRepr fid)) [] none) =
        (s1, .ok resp) →
      200 ≤ resp.status ∧ resp.status < 300 →
      c.delete_episode_file svc s fid =
        (s1, [c.mkRequest .delete
          ((c.base_url.join "episodefile/").join (decRepr fid)) [] none],
         .ok ())) := by
  have hb : c.base_url.path = "/api/v3/" := (new_char hnew).1
  refine ⟨delete_trace c svc s fid, rfl, rfl, ?_, decRepr_ne_slash fid, ?_⟩
  · rw [join_notslash c.base_url "episodefile/" (by decide), join_decRepr]
    dsimp only
    rw [hb]
    rw [show dirOf (dirOf "/api/v3/" ++ "episodefile/") = "/api/v3/episodefile/"
      from by decide]
  · intro s1 resp hsvc h2xx
    exact delete_ok c svc s fid hsvc h2xx

/-- Witness for C8: deleting file id 555 against a service answering 204
succeeds with no error, whatever body the service returned. -/
theorem C8_delete_by_path_witness :
    (wClient.delete_episode_file svc204 () 555).2.1 =
      [wClient.mkRequest .delete
        ((wClient.base_url.join "episodefile/").join (decRepr 555)) [] none] ∧
    (wClient.mkRequest .delete
      ((wClient.base_url.join "episodefile/").join (decRepr 555)) [] none).method =
      .delete ∧
    (wClient.mkRequest .delete
      ((wClient.base_url.join "episodefile/").join (decRepr 555)) [] none).query =
      [] ∧
    ((wClient.base_url.join "episodefile/").join (decRepr 555)).path =
      "/api/v3/episodefile/" ++ decRepr 555 ∧
    (∀ ch ∈ (decRepr 555).data, ch ≠ '/') ∧
    (∀ (s1 : Unit) (resp : HttpResponse),
      svc204 () (wClient.mkRequest .delete
        ((wClient.base_url.join "episodefile/").join (decRepr 555)) [] none) =
        (s1, .ok resp) →
      200 ≤ resp.status ∧ resp.status < 300 →
      wClient.delete_episode_file svc204 () 555 =
        (s1, [wClient.mkRequest .delete
          ((wClient.base_url.join "episodefile/").join (decRepr 555)) [] none],
         .ok ())) :=
  @C8_delete_by_path "http://h" "k" wClient Unit svc204 () 555 rfl

end Sanitarr
